import Mathlib

/-!
Verification development for the python scripting context of coc-snippets
(src/python/ultisnips.py).  Strings are modelled as lists of characters;
integer quantities coming from the editor (shiftwidth, tabstop) and the
shift amounts appearing in the claims are modelled as naturals, matching
the non-negative domains the claims quantify over.  The editor host (the
vim module) is modelled as an abstract evaluator that may fail.
-/

/-- Python str.expandtabs with tab size t, tracking the current column:
a tab advances to the next multiple of t (at a multiple it advances a
full t), a newline or carriage return resets the column, and every other
character advances the column by one. -/
def expandtabs (t : Nat) : List Char → Nat → List Char
  | [], _ => []
  | c :: rest, col =>
    if c = '\t' then
      List.replicate (t - col % t) ' ' ++ expandtabs t rest (col + (t - col % t))
    else if c = '\n' ∨ c = '\r' then
      c :: expandtabs t rest 0
    else
      c :: expandtabs t rest (col + 1)

/-- Python s.rstrip applied with a single space argument: removes trailing
space characters only. -/
def rstripSpaces (s : List Char) : List Char :=
  (s.reverse.dropWhile (fun c => c = ' ')).reverse

/-- Fuel-driven core of Python str.replace for a non-empty pattern:
scan left to right, replacing non-overlapping occurrences of old by new.
The fuel is an upper bound on the number of characters still to scan;
callers supply the length of the scanned string. -/
def pyReplaceFuel (old new : List Char) : Nat → List Char → List Char
  | _, [] => []
  | 0, s => s
  | fuel + 1, c :: rest =>
    if old.isPrefixOf (c :: rest) then
      new ++ pyReplaceFuel old new fuel ((c :: rest).drop old.length)
    else
      c :: pyReplaceFuel old new fuel rest

/-- Python s.replace(old, new).  An empty pattern interleaves new before
every character and at the end, as Python does; a non-empty pattern is
replaced left to right, non-overlapping. -/
def pyReplace (old new s : List Char) : List Char :=
  if old.isEmpty then new ++ s.foldr (fun c acc => c :: (new ++ acc)) []
  else pyReplaceFuel old new s.length s

/-- Python s[:i] for an int i: a non-negative bound takes that many
characters from the front, a negative bound drops that many from the end,
clamped at both ends. -/
def pySliceTo (s : List Char) (i : Int) : List Char :=
  if i < 0 then s.take (s.length - (-i).toNat) else s.take i.toNat

/-- IndentUtil settings snapshot: shiftwidth, expandtab and tabstop as
read from the editor by IndentUtil.reset. -/
structure IndentUtil where
  shiftwidth : Nat
  expandtab : Bool
  tabstop : Nat
deriving DecidableEq, Repr

/-- IndentUtil.indent_to_spaces: expand tabs at the configured tabstop,
remember the trailing-space run, delete all spaces, turn the remaining
tabs into tabstop spaces each and re-attach the trailing run. -/
def IndentUtil.indent_to_spaces (iu : IndentUtil) (indent : List Char) : List Char :=
  let ind1 := expandtabs iu.tabstop indent 0
  let right := List.replicate (ind1.length - (rstripSpaces ind1).length) ' '
  let ind2 := pyReplace [' '] [] ind1
  let ind3 := pyReplace ['\t'] (List.replicate iu.tabstop ' ') ind2
  ind3 ++ right

/-- IndentUtil.spaces_to_indent: when expandtab is off, replace each run
of exactly tabstop spaces by one tab, left to right; otherwise return the
input unchanged. -/
def IndentUtil.spaces_to_indent (iu : IndentUtil) (indent : List Char) : List Char :=
  if !iu.expandtab then pyReplace (List.replicate iu.tabstop ' ') ['\t'] indent
  else indent

/-- IndentUtil.ntabs_to_proper_indent: ntabs times shiftwidth spaces,
normalised by indent_to_spaces then spaces_to_indent. -/
def IndentUtil.ntabs_to_proper_indent (iu : IndentUtil) (ntabs : Nat) : List Char :=
  let line_ind := List.replicate (ntabs * iu.shiftwidth) ' '
  iu.spaces_to_indent (iu.indent_to_spaces line_ind)

/-- State of the SnippetUtil object (the snip object handed to user
code).  The visual field stores the (mode, text) pair built in __init__,
start and stop the snippet bounds. -/
structure SnippetUtil where
  ind : IndentUtil
  visual : Char × List Char
  initial_indent : List Char
  cur : List Char
  rv : List Char
  changed : Bool
  indent : List Char
  start : Nat × Nat
  stop : Nat × Nat
deriving DecidableEq, Repr

/-- SnippetUtil.reset_indent: sets indent to the stored initial indent. -/
def SnippetUtil.reset_indent (st : SnippetUtil) : SnippetUtil :=
  { st with indent := st.initial_indent }

/-- SnippetUtil._reset: re-reads the editor settings (modelled as the
fresh settings argument), installs the new placeholder text, clears rv
and the changed flag, and resets the indent. -/
def SnippetUtil.reset (st : SnippetUtil) (fresh : IndentUtil) (cur : List Char) : SnippetUtil :=
  SnippetUtil.reset_indent
    { st with ind := fresh, cur := cur, rv := [], changed := false }

/-- SnippetUtil.__init__: the source binds the visual mode to the literal
character v and the stored initial indent to the empty string, ignoring
the _initial_indent and _vmode arguments (their leading underscores in
the source mark them unused), then calls _reset with an empty placeholder
text and records the bounds. -/
def SnippetUtil.init (fresh : IndentUtil) (_initial_indent : List Char)
    (_vmode : Char) (vtext : List Char) (start stop : Nat × Nat) : SnippetUtil :=
  SnippetUtil.reset
    { ind := fresh, visual := ('v', vtext), initial_indent := [], cur := [],
      rv := [], changed := false, indent := [], start := start, stop := stop }
    fresh []

/-- SnippetUtil.shift: appends amount times shiftwidth spaces to indent. -/
def SnippetUtil.shift (st : SnippetUtil) (amount : Nat) : SnippetUtil :=
  { st with indent := st.indent ++ List.replicate (st.ind.shiftwidth * amount) ' ' }

/-- SnippetUtil.unshift: sets indent to indent[:by] for
by = -(shiftwidth * amount), Python slice semantics. -/
def SnippetUtil.unshift (st : SnippetUtil) (amount : Nat) : SnippetUtil :=
  { st with indent := pySliceTo st.indent (-((st.ind.shiftwidth * amount : Nat) : Int)) }

/-- SnippetUtil.mkline with both arguments explicit: returns
indent ++ line and reads no state. -/
def SnippetUtil.mkline (_st : SnippetUtil) (line indent : List Char) : List Char :=
  indent ++ line

/-- SnippetUtil.mkline called with only the line argument: Python fills
in the declared defaults, whose indent default is the empty string. -/
def SnippetUtil.mkline1 (st : SnippetUtil) (line : List Char) : List Char :=
  st.mkline line []

/-- The rv property setter: stores the value and sets changed to true
unconditionally. -/
def SnippetUtil.rv_set (st : SnippetUtil) (value : List Char) : SnippetUtil :=
  { st with changed := true, rv := value }

/-- SnippetUtil.__add__: appends a newline and then mkline(value) to rv
through the rv setter. -/
def SnippetUtil.add (st : SnippetUtil) (value : List Char) : SnippetUtil :=
  let st1 := st.rv_set (st.rv ++ ['\n'])
  st1.rv_set (st1.rv ++ st1.mkline1 value)

/-- The v property: the stored visual (mode, text) pair. -/
def SnippetUtil.v (st : SnippetUtil) : Char × List Char :=
  st.visual

/-- The user-callable state-mutating operations of the snip object. -/
inductive UserOp where
  | shiftOp (amount : Nat)
  | unshiftOp (amount : Nat)
  | resetIndentOp
  | setRvOp (value : List Char)
  | addOp (value : List Char)
deriving DecidableEq, Repr

/-- Apply one user operation to the state. -/
def applyOp (st : SnippetUtil) : UserOp → SnippetUtil
  | UserOp.shiftOp amount => st.shift amount
  | UserOp.unshiftOp amount => st.unshift amount
  | UserOp.resetIndentOp => st.reset_indent
  | UserOp.setRvOp value => st.rv_set value
  | UserOp.addOp value => st.add value

/-- Run a list of user operations from left to right. -/
def runOps (st : SnippetUtil) : List UserOp → SnippetUtil
  | [] => st
  | op :: rest => runOps (applyOp st op) rest

/-- Whether a user operation writes the output value rv. -/
def UserOp.writes : UserOp → Bool
  | UserOp.setRvOp _ => true
  | UserOp.addOp _ => true
  | _ => false

/-- Spec-side definition for claim C6: the tab-stop-aware visual width of
a whitespace string, following the specification wording: each tab
advances to the next multiple of the tab width, every other character
advances one column. -/
def specVisualWidth (t : Nat) : List Char → Nat → Nat
  | [], _ => 0
  | c :: rest, col =>
    if c = '\t' then (t - col % t) + specVisualWidth t rest (col + (t - col % t))
    else 1 + specVisualWidth t rest (col + 1)

/-- Abstract vim host as seen through vim.eval: evaluating an expression
either yields a string or raises vim.error, modelled as Except.error. -/
structure VimHost where
  eval : String → Except Unit String

/-- The single-quote character (code point 39) used by opt when it
interpolates the option name into its existence query. -/
def quoteChar : Char := Char.ofNat 39

/-- The query string exists(quoted option) that opt evaluates first,
built exactly as the percent-interpolation in the source builds it. -/
def existsExpr (option : String) : String :=
  "exists(" ++ String.singleton quoteChar ++ option ++ String.singleton quoteChar ++ ")"

/-- SnippetUtil.opt: evaluate the existence query (outside any
try/except, so a raise there propagates to the caller); if it yields the
string 1, evaluate the variable inside try/except, turning a raise into
the default; otherwise return the default.  The default argument is
modelled at string type. -/
def SnippetUtil.opt (_st : SnippetUtil) (vim : VimHost)
    (option default : String) : Except Unit String :=
  match vim.eval (existsExpr option) with
  | Except.error e => Except.error e
  | Except.ok r =>
    if r = "1" then
      match vim.eval option with
      | Except.ok v => Except.ok v
      | Except.error _ => Except.ok default
    else Except.ok default

theorem expandtabs_ws (t : Nat) (s : List Char) (hs : ∀ c ∈ s, c = ' ' ∨ c = '\t') :
    ∀ col, expandtabs t s col = List.replicate (specVisualWidth t s col) ' ' := by
  induction s with
  | nil => intro col; simp [expandtabs, specVisualWidth]
  | cons c rest ih =>
    intro col
    have hrest : ∀ x ∈ rest, x = ' ' ∨ x = '\t' :=
      fun x hx => hs x (List.mem_cons_of_mem c hx)
    rcases hs c (List.mem_cons_self c rest) with h | h <;> subst h
    · have h1 : expandtabs t (' ' :: rest) col = ' ' :: expandtabs t rest (col + 1) := rfl
      have h2 : specVisualWidth t (' ' :: rest) col
          = 1 + specVisualWidth t rest (col + 1) := rfl
      rw [h1, h2, ih hrest, Nat.add_comm 1, List.replicate_succ]
    · have h1 : expandtabs t ('\t' :: rest) col
          = List.replicate (t - col % t) ' ' ++ expandtabs t rest (col + (t - col % t)) := rfl
      have h2 : specVisualWidth t ('\t' :: rest) col
          = (t - col % t) + specVisualWidth t rest (col + (t - col % t)) := rfl
      rw [h1, h2, ih hrest, List.replicate_add]

theorem specVisualWidth_spaces (t m : Nat) :
    ∀ col, specVisualWidth t (List.replicate m ' ') col = m := by
  induction m with
  | zero => intro col; simp [specVisualWidth]
  | succ m ih =>
    intro col
    simp [List.replicate_succ, specVisualWidth, ih, Nat.add_comm]

theorem expandtabs_spaces (t m col : Nat) :
    expandtabs t (List.replicate m ' ') col = List.replicate m ' ' := by
  rw [expandtabs_ws t _ (fun c hc => Or.inl (List.eq_of_mem_replicate hc)) col,
    specVisualWidth_spaces]

theorem rstripSpaces_replicate (m : Nat) : rstripSpaces (List.replicate m ' ') = [] := by
  have h : ∀ k, List.dropWhile (fun c => c = ' ') (List.replicate k ' ') = [] := by
    intro k
    induction k with
    | zero => simp
    | succ k ih => simp [List.replicate_succ, List.dropWhile, ih]
  simp [rstripSpaces, List.reverse_replicate, h]

theorem pyReplaceFuel_cons (old new : List Char) (fuel : Nat) (c : Char) (rest : List Char) :
    pyReplaceFuel old new (fuel + 1) (c :: rest) =
      if old.isPrefixOf (c :: rest) then
        new ++ pyReplaceFuel old new fuel ((c :: rest).drop old.length)
      else c :: pyReplaceFuel old new fuel rest := rfl

theorem replicate_isPrefixOf_iff (c : Char) (a : Nat) :
    ∀ b, (List.replicate a c).isPrefixOf (List.replicate b c) = true ↔ a ≤ b := by
  induction a with
  | zero => intro b; simp [List.isPrefixOf]
  | succ a ih =>
    intro b
    cases b with
    | zero => simp [List.replicate_succ, List.isPrefixOf]
    | succ b => simp [List.replicate_succ, List.isPrefixOf, ih b]

theorem pyReplaceFuel_space_empty : ∀ fuel m, m ≤ fuel →
    pyReplaceFuel [' '] [] fuel (List.replicate m ' ') = [] := by
  intro fuel
  induction fuel with
  | zero =>
    intro m hm
    obtain rfl : m = 0 := Nat.le_zero.mp hm
    simp [pyReplaceFuel]
  | succ f ih =>
    intro m hm
    cases m with
    | zero => simp [pyReplaceFuel]
    | succ m =>
      rw [List.replicate_succ, pyReplaceFuel_cons]
      have hpre : ([' '] : List Char).isPrefixOf (' ' :: List.replicate m ' ') = true := by
        simp [List.isPrefixOf]
      rw [if_pos hpre]
      simpa using ih m (Nat.succ_le_succ_iff.mp hm)

theorem pyReplace_space_empty (m : Nat) :
    pyReplace [' '] [] (List.replicate m ' ') = [] := by
  have h : ([' '] : List Char).isEmpty = false := rfl
  simp only [pyReplace, h, Bool.false_eq_true, if_false]
  exact pyReplaceFuel_space_empty _ m (by simp)

theorem pyReplaceFuel_collapse (t : Nat) (ht : 1 ≤ t) : ∀ fuel m, m ≤ fuel →
    pyReplaceFuel (List.replicate t ' ') ['\t'] fuel (List.replicate m ' ')
      = List.replicate (m / t) '\t' ++ List.replicate (m % t) ' ' := by
  intro fuel
  induction fuel with
  | zero =>
    intro m hm
    obtain rfl : m = 0 := Nat.le_zero.mp hm
    simp [pyReplaceFuel]
  | succ f ih =>
    intro m hm
    cases m with
    | zero => simp [pyReplaceFuel]
    | succ m =>
      rw [List.replicate_succ, pyReplaceFuel_cons, ← List.replicate_succ]
      by_cases htm : t ≤ m + 1
      · rw [if_pos ((replicate_isPrefixOf_iff ' ' t (m + 1)).mpr htm)]
        rw [List.length_replicate, List.drop_replicate,
          ih (m + 1 - t) (by omega)]
        rw [Nat.div_eq_sub_div (by omega) htm, Nat.mod_eq_sub_mod htm]
        simp [List.replicate_succ]
      · rw [if_neg (fun hc => htm ((replicate_isPrefixOf_iff ' ' t (m + 1)).mp hc))]
        rw [ih m (by omega)]
        rw [Nat.div_eq_of_lt (by omega), Nat.mod_eq_of_lt (by omega),
          Nat.div_eq_of_lt (by omega), Nat.mod_eq_of_lt (by omega)]
        simp [List.replicate_succ]
theorem pyReplace_collapse (t m : Nat) (ht : 1 ≤ t) :
    pyReplace (List.replicate t ' ') ['\t'] (List.replicate m ' ')
      = List.replicate (m / t) '\t' ++ List.replicate (m % t) ' ' := by
  have hne : (List.replicate t ' ').isEmpty = false := by
    obtain ⟨t', rfl⟩ : ∃ t', t = t' + 1 := ⟨t - 1, by omega⟩
    rw [List.replicate_succ]
    rfl
  simp only [pyReplace, hne, Bool.false_eq_true, if_false, List.length_replicate]
  exact pyReplaceFuel_collapse t ht m m (Nat.le_refl m)

theorem expandtabs_tabs_spaces (t : Nat) :
    ∀ a b col, col % t = 0 →
      expandtabs t (List.replicate a '\t' ++ List.replicate b ' ') col
        = List.replicate (a * t + b) ' ' := by
  intro a
  induction a with
  | zero =>
    intro b col _
    simpa using expandtabs_spaces t b col
  | succ a ih =>
    intro b col hcol
    rw [List.replicate_succ, List.cons_append]
    have h1 : expandtabs t ('\t' :: (List.replicate a '\t' ++ List.replicate b ' ')) col
        = List.replicate (t - col % t) ' '
          ++ expandtabs t (List.replicate a '\t' ++ List.replicate b ' ')
              (col + (t - col % t)) := rfl
    rw [h1, hcol, Nat.sub_zero, ih b (col + t) (by rw [Nat.add_mod_right]; exact hcol)]
    rw [← List.replicate_add]
    congr 1
    ring

theorem indent_to_spaces_of_expandtabs (iu : IndentUtil) (s : List Char) (n : Nat)
    (h : expandtabs iu.tabstop s 0 = List.replicate n ' ') :
    iu.indent_to_spaces s = List.replicate n ' ' := by
  have htab : pyReplace ['\t'] (List.replicate iu.tabstop ' ') [] = [] := rfl
  simp only [IndentUtil.indent_to_spaces, h, rstripSpaces_replicate,
    pyReplace_space_empty, htab, List.length_replicate, List.length_nil,
    Nat.sub_zero, List.nil_append]

theorem indent_to_spaces_spaces (iu : IndentUtil) (m : Nat) :
    iu.indent_to_spaces (List.replicate m ' ') = List.replicate m ' ' :=
  indent_to_spaces_of_expandtabs iu _ m (expandtabs_spaces iu.tabstop m 0)

theorem applyOp_changed (st : SnippetUtil) (op : UserOp) :
    (applyOp st op).changed = (st.changed || op.writes) := by
  cases op <;>
    simp [applyOp, UserOp.writes, SnippetUtil.shift, SnippetUtil.unshift,
      SnippetUtil.reset_indent, SnippetUtil.rv_set, SnippetUtil.add]

theorem runOps_changed (ops : List UserOp) : ∀ st : SnippetUtil,
    (runOps st ops).changed = (st.changed || ops.any UserOp.writes) := by
  induction ops with
  | nil => intro st; simp [runOps]
  | cons op rest ih =>
    intro st
    simp [runOps, ih, applyOp_changed, Bool.or_assoc]

/-- C1: the claim says mkline's indent parameter defaults to the current
indentation, so that after shift(1) with shiftwidth 2 the call
mkline(x) yields two spaces and x.  The code's default is the empty
string: at that very input the current indent is two spaces, yet mkline
with only the line argument returns just x.  This contradicts the
method's own docstring, which promises the default indent amount. -/
theorem mkline_default_ignores_current_indent :
    ((SnippetUtil.init ⟨2, false, 4⟩ [] 'v' [] (0, 0) (0, 0)).shift 1).indent = [' ', ' '] ∧
    ((SnippetUtil.init ⟨2, false, 4⟩ [] 'v' [] (0, 0) (0, 0)).shift 1).mkline1 ['x'] = ['x'] ∧
    (['x'] : List Char) ≠ [' ', ' ', 'x'] := by
  decide

/-- C2 counterexample: the constructor is passed the two-space initial
indent, yet both the stored baseline and the current indent come out
empty, so the claim that currentIndent equals the supplied prefix fails
at this input. -/
theorem init_discards_initial_indent_cex :
    (SnippetUtil.init ⟨2, false, 4⟩ [' ', ' '] 'v' [] (0, 0) (0, 0)).initial_indent = [] ∧
    (SnippetUtil.init ⟨2, false, 4⟩ [' ', ' '] 'v' [] (0, 0) (0, 0)).indent = [] ∧
    ([] : List Char) ≠ [' ', ' '] := by
  decide

/-- C2 amended: the constructor ignores the supplied initial-indent
argument; the stored baseline is always the empty string, the current
indent after construction is empty, and reset_indent restores the
current indent to that stored baseline.  The original claim holds only
for an empty supplied prefix. -/
theorem initial_indent_always_empty (fresh : IndentUtil) (s : List Char) (m : Char)
    (t : List Char) (a b : Nat × Nat) :
    (SnippetUtil.init fresh s m t a b).initial_indent = [] ∧
    (SnippetUtil.init fresh s m t a b).indent = [] ∧
    (∀ st : SnippetUtil, st.reset_indent.indent = st.initial_indent) :=
  ⟨rfl, rfl, fun _ => rfl⟩

/-- C3: for any starting state, fresh settings and placeholder text, and
any sequence of user operations run after a reset, the changed flag is
true exactly when the sequence contains a write to the output (a direct
rv assignment or an append), whatever values were written; shifts,
unshifts and indent resets never affect it, and the flag is false when
the sequence contains no write, in particular immediately after reset. -/
theorem changed_iff_output_written (st : SnippetUtil) (fresh : IndentUtil)
    (cur : List Char) (ops : List UserOp) :
    (runOps (SnippetUtil.reset st fresh cur) ops).changed = true ↔
      ∃ op ∈ ops, op.writes = true := by
  rw [runOps_changed]
  simp [SnippetUtil.reset, SnippetUtil.reset_indent, List.any_eq_true]

/-- C4 counterexample: with shiftwidth 1 and current indent a single
space, shift(0) followed by unshift(0) requests the removal of zero
characters, which does not exceed the length one of the string, so the
claim's proviso holds; yet the indent comes back empty instead of the
original single space. -/
theorem shift_unshift_zero_not_restored_cex :
    ((((SnippetUtil.init ⟨1, false, 4⟩ [] 'v' [] (0, 0) (0, 0)).shift 1).shift 0).unshift 0).indent
        = [] ∧
    (((SnippetUtil.init ⟨1, false, 4⟩ [] 'v' [] (0, 0) (0, 0)).shift 1).shift 0).indent = [' '] ∧
    0 * 1 ≤ ((((SnippetUtil.init ⟨1, false, 4⟩ [] 'v' [] (0, 0) (0, 0)).shift 1).shift 0)).indent.length ∧
    ([] : List Char) ≠ [' '] := by
  decide

/-- C4 amended: for every state and every amount with amount times
shiftwidth at least one, unshift(amount) after shift(amount) restores
the current indent exactly; when the product is zero the Python slice
indent[:-0] empties the indent instead (see C10), so that case is
excluded. -/
theorem shift_unshift_restores (st : SnippetUtil) (amount : Nat)
    (h : 1 ≤ amount * st.ind.shiftwidth) :
    ((st.shift amount).unshift amount).indent = st.indent := by
  have hk : 1 ≤ st.ind.shiftwidth * amount := by rw [Nat.mul_comm]; exact h
  obtain ⟨k, hkk⟩ : ∃ k, st.ind.shiftwidth * amount = k := ⟨_, rfl⟩
  rw [hkk] at hk
  simp only [SnippetUtil.shift, SnippetUtil.unshift, pySliceTo, hkk]
  rw [if_pos (by omega : -((k : Nat) : Int) < 0)]
  have hlen : (st.indent ++ List.replicate k ' ').length
      - (- -((k : Nat) : Int)).toNat = st.indent.length := by
    simp only [List.length_append, List.length_replicate, Int.neg_neg]
    omega
  rw [hlen, List.take_left]

/-- C4 witness: shift(2) then unshift(2) with shiftwidth 2 restores the
empty initial indent. -/
theorem shift_unshift_restores_witness :
    (((SnippetUtil.init ⟨2, false, 4⟩ [] 'v' [] (0, 0) (0, 0)).shift 2).unshift 2).indent
      = (SnippetUtil.init ⟨2, false, 4⟩ [] 'v' [] (0, 0) (0, 0)).indent :=
  shift_unshift_restores (SnippetUtil.init ⟨2, false, 4⟩ [] 'v' [] (0, 0) (0, 0)) 2 (by decide)

/-- C5: when the current indent is shorter than amount times shiftwidth
and the amount is at least one, unshift clamps the indent to the empty
string; the operation is total, no error path exists in the model. -/
theorem unshift_underflow_clamps (st : SnippetUtil) (amount : Nat)
    (_h1 : 1 ≤ amount) (h2 : st.indent.length < amount * st.ind.shiftwidth) :
    (st.unshift amount).indent = [] := by
  have hk : st.indent.length < st.ind.shiftwidth * amount := by
    rw [Nat.mul_comm]; exact h2
  obtain ⟨k, hkk⟩ : ∃ k, st.ind.shiftwidth * amount = k := ⟨_, rfl⟩
  rw [hkk] at hk
  simp only [SnippetUtil.unshift, pySliceTo, hkk]
  rw [if_pos (by omega : -((k : Nat) : Int) < 0)]
  have hz : st.indent.length - (- -((k : Nat) : Int)).toNat = 0 := by
    simp only [Int.neg_neg]
    omega
  rw [hz, List.take_zero]

/-- C5 witness: indent of length two, unshift(2) at shiftwidth 2
requests four characters and clamps to empty. -/
theorem unshift_underflow_clamps_witness :
    (((SnippetUtil.init ⟨2, false, 4⟩ [] 'v' [] (0, 0) (0, 0)).shift 1).unshift 2).indent = [] :=
  unshift_underflow_clamps ((SnippetUtil.init ⟨2, false, 4⟩ [] 'v' [] (0, 0) (0, 0)).shift 1) 2
    (by decide) (by decide)

/-- C6: on a string of spaces and tabs, indent_to_spaces returns exactly
the all-space string whose length is the tab-stop-aware visual width of
the input, as defined by specVisualWidth following the specification. -/
theorem indent_to_spaces_visual_width (sw : Nat) (et : Bool) (t : Nat) (_ht : 1 ≤ t)
    (s : List Char) (hs : ∀ c ∈ s, c = ' ' ∨ c = '\t') :
    IndentUtil.indent_to_spaces ⟨sw, et, t⟩ s
      = List.replicate (specVisualWidth t s 0) ' ' :=
  indent_to_spaces_of_expandtabs ⟨sw, et, t⟩ s _ (expandtabs_ws t s hs 0)

/-- C6 witness: with tab width 4 a single tab expands to four spaces. -/
theorem indent_to_spaces_visual_width_witness :
    IndentUtil.indent_to_spaces ⟨2, false, 4⟩ ['\t']
        = List.replicate (specVisualWidth 4 ['\t'] 0) ' ' ∧
    List.replicate (specVisualWidth 4 ['\t'] 0) ' ' = [' ', ' ', ' ', ' '] :=
  ⟨indent_to_spaces_visual_width 2 false 4 (by decide) ['\t'] (by decide), by decide⟩

/-- C7: for every settings tuple with tab width at least one and every
tab count, the output of ntabs_to_proper_indent is a fixed point of the
normalization pipeline indent_to_spaces followed by spaces_to_indent. -/
theorem ntabs_normalization_fixed_point (sw t : Nat) (et : Bool) (n : Nat) (ht : 1 ≤ t) :
    IndentUtil.spaces_to_indent ⟨sw, et, t⟩
        (IndentUtil.indent_to_spaces ⟨sw, et, t⟩
          (IndentUtil.ntabs_to_proper_indent ⟨sw, et, t⟩ n))
      = IndentUtil.ntabs_to_proper_indent ⟨sw, et, t⟩ n := by
  have hnt : IndentUtil.ntabs_to_proper_indent ⟨sw, et, t⟩ n
      = IndentUtil.spaces_to_indent ⟨sw, et, t⟩ (List.replicate (n * sw) ' ') := by
    simp only [IndentUtil.ntabs_to_proper_indent, indent_to_spaces_spaces]
  cases et with
  | true =>
    have hid : ∀ x, IndentUtil.spaces_to_indent ⟨sw, true, t⟩ x = x := by
      intro x
      simp [IndentUtil.spaces_to_indent]
    rw [hnt, hid, hid, indent_to_spaces_spaces]
  | false =>
    have h2 : IndentUtil.spaces_to_indent ⟨sw, false, t⟩ (List.replicate (n * sw) ' ')
        = List.replicate (n * sw / t) '\t' ++ List.replicate (n * sw % t) ' ' := by
      simp only [IndentUtil.spaces_to_indent, Bool.not_false, if_pos]
      exact pyReplace_collapse t (n * sw) ht
    have h3 : expandtabs t
        (List.replicate (n * sw / t) '\t' ++ List.replicate (n * sw % t) ' ') 0
        = List.replicate (n * sw) ' ' := by
      rw [expandtabs_tabs_spaces t (n * sw / t) (n * sw % t) 0 (Nat.zero_mod t)]
      rw [Nat.mul_comm (n * sw / t) t, Nat.div_add_mod]
    have h4 : IndentUtil.indent_to_spaces ⟨sw, false, t⟩
        (List.replicate (n * sw / t) '\t' ++ List.replicate (n * sw % t) ' ')
        = List.replicate (n * sw) ' ' :=
      indent_to_spaces_of_expandtabs ⟨sw, false, t⟩ _ (n * sw) h3
    rw [hnt, h2, h4, h2]

/-- C7 witness: with shiftwidth 2, tab width 4, expandtab off and three
tabs, the produced indent (one tab and two spaces) is left unchanged by
re-normalization. -/
theorem ntabs_normalization_fixed_point_witness :
    IndentUtil.spaces_to_indent ⟨2, false, 4⟩
        (IndentUtil.indent_to_spaces ⟨2, false, 4⟩
          (IndentUtil.ntabs_to_proper_indent ⟨2, false, 4⟩ 3))
      = IndentUtil.ntabs_to_proper_indent ⟨2, false, 4⟩ 3 :=
  ntabs_normalization_fixed_point 2 4 false 3 (by decide)

/-- C8 counterexample: the constructor is handed the visual mode V, yet
the accessor v reports mode v: the supplied mode character is discarded
(the source hardcodes the literal v), so the claim fails whenever the
supplied mode differs from v. -/
theorem v_mode_hardcoded_cex :
    (SnippetUtil.init ⟨2, false, 4⟩ [] 'V' ['a'] (0, 0) (0, 0)).v = ('v', ['a']) ∧
    ('v' : Char) ≠ 'V' := by
  decide

/-- C8 amended: the v accessor returns the pair of the literal mode
character v and exactly the text supplied at construction; only the text
half of the snapshot is preserved. -/
theorem v_returns_mode_v_and_text (fresh : IndentUtil) (s : List Char) (m : Char)
    (t : List Char) (a b : Nat × Nat) :
    (SnippetUtil.init fresh s m t a b).v = ('v', t) :=
  rfl

/-- C9 counterexample: a host whose evaluator always raises makes opt
itself raise, because the existence check runs outside the try/except:
the result is an error, not the fallback, refuting the claim that no
failure is ever propagated to the caller. -/
theorem opt_propagates_exists_check_failure_cex :
    SnippetUtil.opt (SnippetUtil.init ⟨2, false, 4⟩ [] 'v' [] (0, 0) (0, 0))
        ⟨fun _ => Except.error ()⟩ "g:undefined_var" "fallback" = Except.error () ∧
    (Except.error () : Except Unit String) ≠ Except.ok "fallback" :=
  ⟨rfl, fun h => Except.noConfusion h⟩

/-- C9 amended: provided the existence check itself evaluates without a
host error, opt returns the variable's value when the check yields 1 and
the evaluation succeeds, returns the default when the evaluation raises,
and returns the default when the check yields anything other than 1; an
error raised by the existence check itself is not caught and propagates. -/
theorem opt_swallows_variable_eval_failure (st : SnippetUtil) (vim : VimHost)
    (name d : String) :
    (∀ v, vim.eval (existsExpr name) = Except.ok "1" → vim.eval name = Except.ok v →
      SnippetUtil.opt st vim name d = Except.ok v) ∧
    (vim.eval (existsExpr name) = Except.ok "1" → vim.eval name = Except.error () →
      SnippetUtil.opt st vim name d = Except.ok d) ∧
    (∀ r, vim.eval (existsExpr name) = Except.ok r → r ≠ "1" →
      SnippetUtil.opt st vim name d = Except.ok d) := by
  refine ⟨fun v h1 h2 => ?_, fun h1 h2 => ?_, fun r h1 h2 => ?_⟩ <;>
    simp [SnippetUtil.opt, h1, h2]

/-- C9 witness: three concrete hosts exercise the three cases: an
existing variable evaluating to a value, an existing variable whose
evaluation raises, and an undefined variable. -/
theorem opt_swallows_variable_eval_failure_witness :
    SnippetUtil.opt (SnippetUtil.init ⟨2, false, 4⟩ [] 'v' [] (0, 0) (0, 0))
        ⟨fun e => if e = existsExpr "g:var" then Except.ok "1"
          else if e = "g:var" then Except.ok "value" else Except.error ()⟩
        "g:var" "fallback" = Except.ok "value" ∧
    SnippetUtil.opt (SnippetUtil.init ⟨2, false, 4⟩ [] 'v' [] (0, 0) (0, 0))
        ⟨fun e => if e = existsExpr "g:var" then Except.ok "1" else Except.error ()⟩
        "g:var" "fallback" = Except.ok "fallback" ∧
    SnippetUtil.opt (SnippetUtil.init ⟨2, false, 4⟩ [] 'v' [] (0, 0) (0, 0))
        ⟨fun _ => Except.ok "0"⟩ "g:undefined_var" "fallback" = Except.ok "fallback" :=
  ⟨(opt_swallows_variable_eval_failure _ _ "g:var" "fallback").1 "value" rfl rfl,
   (opt_swallows_variable_eval_failure _ _ "g:var" "fallback").2.1 rfl rfl,
   (opt_swallows_variable_eval_failure _ _ "g:undefined_var" "fallback").2.2 "0" rfl
     (by decide)⟩

/-- C10: whenever amount times shiftwidth is zero, for example
unshift(0) or any unshift at shiftwidth zero, the Python slice
indent[:-0] is indent[:0], so unshift empties the current indent rather
than leaving it unchanged. -/
theorem unshift_zero_removal_clears_indent (st : SnippetUtil) (amount : Nat)
    (h : amount * st.ind.shiftwidth = 0) :
    (st.unshift amount).indent = [] := by
  have hk : st.ind.shiftwidth * amount = 0 := by rw [Nat.mul_comm]; exact h
  simp only [SnippetUtil.unshift, pySliceTo, hk]
  simp

/-- C10 witness: with a two-space indent, unshift(0) clears the indent
entirely. -/
theorem unshift_zero_removal_clears_indent_witness :
    (((SnippetUtil.init ⟨2, false, 4⟩ [] 'v' [] (0, 0) (0, 0)).shift 1).unshift 0).indent = [] :=
  unshift_zero_removal_clears_indent
    ((SnippetUtil.init ⟨2, false, 4⟩ [] 'v' [] (0, 0) (0, 0)).shift 1) 0 (by decide)
